import Mathlib

/-!
Shallow embedding of the operating-hours schedule engine from
`src/shared/utils/OperatingHoursUtils.ts` and the schedule data model from
`src/domain/types/OperatingHours.ts`.

JavaScript `Date` values are modelled as `Int` timestamps in milliseconds
(local wall-clock frame, as the engine performs no timezone handling); an
`Option Int` models a possibly-Invalid `Date` (`none` = Invalid Date, i.e. a
NaN timestamp).  JavaScript numbers produced by `parseInt` are modelled as
`Option Int` (`none` = NaN).  The TypeScript field name `open` is a Lean
keyword, so the fields are named `openT`/`closeT`.
-/

def msPerMinute : Int := 60000

def msPerHour : Int := 3600000

def msPerDay : Int := 86400000

/-- One day's window (`DaySchedule` in `OperatingHours.ts`). -/
structure DaySchedule where
  openT : String
  closeT : String
  closed : Bool
deriving DecidableEq, Repr

/-- The full week (`OperatingHours` in `OperatingHours.ts`): all seven days present. -/
structure OperatingHours where
  monday : DaySchedule
  tuesday : DaySchedule
  wednesday : DaySchedule
  thursday : DaySchedule
  friday : DaySchedule
  saturday : DaySchedule
  sunday : DaySchedule
deriving DecidableEq, Repr

/-- The seven canonical weekday keys. -/
inductive Day where
  | monday | tuesday | wednesday | thursday | friday | saturday | sunday
deriving DecidableEq, Repr

/-- Field lookup by weekday key (`operatingHours[day]` on a complete schedule). -/
def OperatingHours.get (oh : OperatingHours) (d : Day) : DaySchedule :=
  match d with
  | .monday => oh.monday
  | .tuesday => oh.tuesday
  | .wednesday => oh.wednesday
  | .thursday => oh.thursday
  | .friday => oh.friday
  | .saturday => oh.saturday
  | .sunday => oh.sunday

/-- `DEFAULT_OPERATING_HOURS` from `src/domain/types/OperatingHours.ts`. -/
def DEFAULT_OPERATING_HOURS : OperatingHours :=
  { monday := { openT := "09:00", closeT := "22:00", closed := false }
    tuesday := { openT := "09:00", closeT := "22:00", closed := false }
    wednesday := { openT := "09:00", closeT := "22:00", closed := false }
    thursday := { openT := "09:00", closeT := "22:00", closed := false }
    friday := { openT := "09:00", closeT := "22:00", closed := false }
    saturday := { openT := "10:00", closeT := "22:00", closed := false }
    sunday := { openT := "10:00", closeT := "21:00", closed := false } }

/-- The fixed iteration order `DAYS` (monday → sunday) of `OperatingHoursUtils`. -/
def DAYS : List Day :=
  [.monday, .tuesday, .wednesday, .thursday, .friday, .saturday, .sunday]

/-- The string key of a weekday, as used in error messages. -/
def dayKey (d : Day) : String :=
  match d with
  | .monday => "monday"
  | .tuesday => "tuesday"
  | .wednesday => "wednesday"
  | .thursday => "thursday"
  | .friday => "friday"
  | .saturday => "saturday"
  | .sunday => "sunday"

/- ## JavaScript string/number primitives -/

/-- JS whitespace skipped by `parseInt` (the forms relevant here). -/
def jsIsSpace (c : Char) : Bool :=
  c == ' ' || c == '\t' || c == '\n' || c == '\r'

/-- The character class `[0-9]`. -/
def isDigitCh (c : Char) : Bool :=
  48 ≤ c.toNat && c.toNat ≤ 57

/-- Numeric value of a digit character. -/
def digitVal (c : Char) : Int :=
  (c.toNat : Int) - 48

/-- Value of the maximal leading digit run, `none` when there is none (NaN). -/
def digPrefixVal (cs : List Char) : Option Int :=
  let ds := cs.takeWhile isDigitCh
  if ds.isEmpty then none
  else some (ds.foldl (fun a c => a * 10 + digitVal c) 0)

/-- JS `parseInt(s, 10)`: skip whitespace, optional sign, maximal digit prefix;
`none` models NaN. -/
def parseIntDec (cs0 : List Char) : Option Int :=
  match cs0.dropWhile jsIsSpace with
  | [] => none
  | c :: rest =>
    if c = '-' then (digPrefixVal rest).map (fun v => -v)
    else if c = '+' then digPrefixVal rest
    else digPrefixVal (c :: rest)

/-- JS `String.prototype.split(sep)` for a single-character separator. -/
def splitOnCh (sep : Char) : List Char → List (List Char)
  | [] => [[]]
  | c :: rest =>
    if c = sep then [] :: splitOnCh sep rest
    else
      match splitOnCh sep rest with
      | [] => [[c]]
      | h :: t => (c :: h) :: t

/-- `s || '0'` for the split components (empty string and `undefined` are falsy). -/
def orZeroChars (cs : List Char) : List Char :=
  if cs.isEmpty then ['0'] else cs

/-- The common `time.split(':')` / `parseInt(hoursStr || '0', 10)` /
`parseInt(minutesStr || '0', 10)` sequence that both `timeToMinutes` and
`getNextOpeningTime` perform on a time string. -/
def splitHM (s : String) : Option Int × Option Int :=
  match splitOnCh ':' s.data with
  | [] => (parseIntDec ['0'], parseIntDec ['0'])
  | [h] => (parseIntDec (orZeroChars h), parseIntDec ['0'])
  | h :: m :: _ => (parseIntDec (orZeroChars h), parseIntDec (orZeroChars m))

/-- `timeToMinutes`: `hours * 60 + minutes`; `none` models a NaN result. -/
def timeToMinutes (time : String) : Option Int :=
  match splitHM time with
  | (some h, some m) => some (h * 60 + m)
  | _ => none

/-- The character class `[0-5]`. -/
def isMinTensCh (c : Char) : Bool :=
  48 ≤ c.toNat && c.toNat ≤ 53

/-- The anchored regex `^([01]?[0-9]|2[0-3]):[0-5][0-9]$` (`TIME_PATTERN`),
decided by full-match over the character list. -/
def isValidTimeFormat (time : String) : Bool :=
  match time.data with
  | [h, c, m1, m2] =>
    c == ':' && isDigitCh h && isMinTensCh m1 && isDigitCh m2
  | [h1, h2, c, m1, m2] =>
    c == ':' &&
      (((h1 == '0' || h1 == '1') && isDigitCh h2) ||
        (h1 == '2' && 48 ≤ h2.toNat && h2.toNat ≤ 51)) &&
      isMinTensCh m1 && isDigitCh m2
  | _ => false

/- ## Validator -/

/-- `validateDaySchedule`: closed days are skipped; otherwise format errors for
`open` and `close`, then the equality error when both parse to the same minute. -/
def validateDaySchedule (daySchedule : DaySchedule) (dayName : String) : List String :=
  if daySchedule.closed then []
  else
    (if isValidTimeFormat daySchedule.openT then []
      else [dayName ++ ": Invalid opening time format. Use HH:MM (24-hour format)"]) ++
    (if isValidTimeFormat daySchedule.closeT then []
      else [dayName ++ ": Invalid closing time format. Use HH:MM (24-hour format)"]) ++
    (if isValidTimeFormat daySchedule.openT && isValidTimeFormat daySchedule.closeT then
      (if timeToMinutes daySchedule.openT == timeToMinutes daySchedule.closeT then
        [dayName ++ ": Opening and closing times cannot be the same"]
      else [])
    else [])

/-- Runtime input of the validator: each of the seven keys may be absent
(`!operatingHours[day]` in the source checks for that). -/
structure OperatingHoursInput where
  monday : Option DaySchedule
  tuesday : Option DaySchedule
  wednesday : Option DaySchedule
  thursday : Option DaySchedule
  friday : Option DaySchedule
  saturday : Option DaySchedule
  sunday : Option DaySchedule
deriving DecidableEq, Repr

/-- Key lookup on the validator's input. -/
def OperatingHoursInput.get (oh : OperatingHoursInput) (d : Day) : Option DaySchedule :=
  match d with
  | .monday => oh.monday
  | .tuesday => oh.tuesday
  | .wednesday => oh.wednesday
  | .thursday => oh.thursday
  | .friday => oh.friday
  | .saturday => oh.saturday
  | .sunday => oh.sunday

/-- `OperatingHoursValidationResult`. -/
structure OperatingHoursValidationResult where
  isValid : Bool
  errors : List String
deriving DecidableEq, Repr

/-- `validateOperatingHours`: iterate `DAYS` in order, accumulating the missing-day
error or the day's own errors; valid iff no errors accumulated. -/
def validateOperatingHours (operatingHours : OperatingHoursInput) : OperatingHoursValidationResult :=
  let errors := DAYS.flatMap fun day =>
    match operatingHours.get day with
    | none => ["Missing schedule for " ++ dayKey day]
    | some daySchedule => validateDaySchedule daySchedule (dayKey day)
  { isValid := errors.length == 0, errors := errors }

/-- A complete schedule viewed as validator input (all seven keys present). -/
def toInput (oh : OperatingHours) : OperatingHoursInput :=
  { monday := some oh.monday, tuesday := some oh.tuesday,
    wednesday := some oh.wednesday, thursday := some oh.thursday,
    friday := some oh.friday, saturday := some oh.saturday,
    sunday := some oh.sunday }

/- ## Sanitizer -/

/-- Runtime shape of one day inside the sanitizer's `Partial<OperatingHours>`
input: each field may itself be absent (`undefined`). -/
structure DayInput where
  openT : Option String
  closeT : Option String
  closed : Option Bool
deriving DecidableEq, Repr

/-- The sanitizer's input: each day entry may be absent. -/
structure PartialOperatingHours where
  monday : Option DayInput
  tuesday : Option DayInput
  wednesday : Option DayInput
  thursday : Option DayInput
  friday : Option DayInput
  saturday : Option DayInput
  sunday : Option DayInput
deriving DecidableEq, Repr

/-- Key lookup on the sanitizer's input. -/
def PartialOperatingHours.get (oh : PartialOperatingHours) (d : Day) : Option DayInput :=
  match d with
  | .monday => oh.monday
  | .tuesday => oh.tuesday
  | .wednesday => oh.wednesday
  | .thursday => oh.thursday
  | .friday => oh.friday
  | .saturday => oh.saturday
  | .sunday => oh.sunday

/-- JS `a || b` for a possibly-absent string (`undefined` and `""` are falsy). -/
def jsOrStr (v : Option String) (dflt : String) : String :=
  match v with
  | none => dflt
  | some s => if s = "" then dflt else s

/-- JS `Boolean(v)` for a possibly-absent boolean. -/
def jsBool (v : Option Bool) : Bool :=
  match v with
  | none => false
  | some b => b

/-- `getDefaultOperatingHours` (the JSON round-trip deep copy is the identity in
value semantics). -/
def getDefaultOperatingHours : OperatingHours :=
  DEFAULT_OPERATING_HOURS

/-- The per-day overlay performed by the `sanitizeOperatingHours` loop body. -/
def sanitizeDaySub (di : Option DayInput) (dflt : DaySchedule) : DaySchedule :=
  match di with
  | none => dflt
  | some d =>
    { openT := jsOrStr d.openT dflt.openT
      closeT := jsOrStr d.closeT dflt.closeT
      closed := jsBool d.closed }

/-- `sanitizeOperatingHours`: start from the default schedule and overlay each
present input day (the source's `for day of DAYS` loop writes each field once). -/
def sanitizeOperatingHours (input : PartialOperatingHours) : OperatingHours :=
  { monday := sanitizeDaySub input.monday getDefaultOperatingHours.monday
    tuesday := sanitizeDaySub input.tuesday getDefaultOperatingHours.tuesday
    wednesday := sanitizeDaySub input.wednesday getDefaultOperatingHours.wednesday
    thursday := sanitizeDaySub input.thursday getDefaultOperatingHours.thursday
    friday := sanitizeDaySub input.friday getDefaultOperatingHours.friday
    saturday := sanitizeDaySub input.saturday getDefaultOperatingHours.saturday
    sunday := sanitizeDaySub input.sunday getDefaultOperatingHours.sunday }

/- ## Instants and the point-in-time predicate -/

/-- JS `Date.prototype.getDay()` index (0 = Sunday … 6 = Saturday) of a
millisecond timestamp; day 0 of the epoch is a Thursday. -/
def getDayOfWeek (ts : Int) : Nat :=
  ((ts / msPerDay + 4) % 7).toNat

/-- The `dayNames` array indexed by `getDay()` (0 = sunday … 6 = saturday). -/
def dayNames (n : Nat) : Day :=
  match n with
  | 0 => .sunday
  | 1 => .monday
  | 2 => .tuesday
  | 3 => .wednesday
  | 4 => .thursday
  | 5 => .friday
  | _ => .saturday

/-- JS `getHours()` of a timestamp. -/
def getHours (ts : Int) : Int :=
  ts % msPerDay / msPerHour

/-- JS `getMinutes()` of a timestamp. -/
def getMinutes (ts : Int) : Int :=
  ts % msPerDay % msPerHour / msPerMinute

/-- JS `<` on possibly-NaN numbers (any comparison with NaN is false). -/
def jsLt (a b : Option Int) : Bool :=
  match a, b with
  | some x, some y => decide (x < y)
  | _, _ => false

/-- JS `<=` on possibly-NaN numbers / Invalid Dates. -/
def jsLe (a b : Option Int) : Bool :=
  match a, b with
  | some x, some y => decide (x ≤ y)
  | _, _ => false

/-- `isOpenAt`: closed day → false; otherwise inclusive same-day window when
`open < close`, else the midnight-crossing disjunction. -/
def isOpenAt (operatingHours : OperatingHours) (dateTime : Int) : Bool :=
  let daySchedule := operatingHours.get (dayNames (getDayOfWeek dateTime))
  if daySchedule.closed then false
  else
    let currentMinutes : Option Int := some (getHours dateTime * 60 + getMinutes dateTime)
    let openMinutes := timeToMinutes daySchedule.openT
    let closeMinutes := timeToMinutes daySchedule.closeT
    if jsLt openMinutes closeMinutes then
      jsLe openMinutes currentMinutes && jsLe currentMinutes closeMinutes
    else
      jsLe openMinutes currentMinutes || jsLe currentMinutes closeMinutes

/- ## Next-opening search -/

/-- Midnight (local) of the calendar day containing `ts`. -/
def dayStart (ts : Int) : Int :=
  ts - ts % msPerDay

/-- The candidate opening instant: `new Date(checkDate)` followed by
`setHours(parseInt(hoursStr||'0'), parseInt(minutesStr||'0'), 0, 0)`;
`none` models the Invalid Date produced when a part parses to NaN. -/
def openingInstant (daySchedule : DaySchedule) (checkDate : Int) : Option Int :=
  match splitHM daySchedule.openT with
  | (some h, some m) => some (dayStart checkDate + h * msPerHour + m * msPerMinute)
  | _ => none

/-- The `for (let i = 0; i < 7; i++)` scan of `getNextOpeningTime`, over the
remaining day offsets. -/
def nextOpenLoop (operatingHours : OperatingHours) (startDate : Int) :
    List Int → Option (Option Int)
  | [] => none
  | i :: rest =>
    let checkDate := startDate + i * msPerDay
    let daySchedule := operatingHours.get (dayNames (getDayOfWeek checkDate))
    if daySchedule.closed then nextOpenLoop operatingHours startDate rest
    else
      let openingTime := openingInstant daySchedule checkDate
      if i == 0 && jsLe openingTime (some startDate) then
        nextOpenLoop operatingHours startDate rest
      else some openingTime

/-- `getNextOpeningTime`: outer `none` models the `null` return; `some none`
models returning an Invalid Date; `some (some ts)` a real Date. -/
def getNextOpeningTime (operatingHours : OperatingHours) (fromDateTime : Int) :
    Option (Option Int) :=
  nextOpenLoop operatingHours fromDateTime [0, 1, 2, 3, 4, 5, 6]

/- ## minutesToTime -/

/-- The decimal digit character for `n < 10`. -/
def digitChar (n : Nat) : Char :=
  Char.ofNat (48 + n)

/-- Fuelled decimal rendering (fuel-structural so that it reduces). -/
def natToCharsGo (fuel n : Nat) : List Char :=
  match fuel with
  | 0 => []
  | fuel + 1 =>
    if n < 10 then [digitChar n]
    else natToCharsGo fuel (n / 10) ++ [digitChar (n % 10)]

/-- JS `Number.prototype.toString()` for a natural number. -/
def natToChars (n : Nat) : List Char :=
  natToCharsGo (n + 1) n

/-- JS `padStart(2, '0')`. -/
def padStart2 (cs : List Char) : List Char :=
  List.replicate (2 - cs.length) '0' ++ cs

/-- `minutesToTime` on natural minute counts (the claim's domain 0..1439):
`Math.floor(minutes / 60)` and `minutes % 60`, both zero-padded to two digits. -/
def minutesToTime (minutes : Nat) : String :=
  let hours := minutes / 60
  let mins := minutes % 60
  String.mk (padStart2 (natToChars hours) ++ ':' :: padStart2 (natToChars mins))

/- ## Derived views and spec-side descriptions -/

/-- A sanitized day re-read as sanitizer input (every field present). -/
def dayToInput (ds : DaySchedule) : DayInput :=
  { openT := some ds.openT, closeT := some ds.closeT, closed := some ds.closed }

/-- A complete schedule re-read as sanitizer input (every day present). -/
def toPartial (oh : OperatingHours) : PartialOperatingHours :=
  { monday := some (dayToInput oh.monday), tuesday := some (dayToInput oh.tuesday),
    wednesday := some (dayToInput oh.wednesday), thursday := some (dayToInput oh.thursday),
    friday := some (dayToInput oh.friday), saturday := some (dayToInput oh.saturday),
    sunday := some (dayToInput oh.sunday) }

/-- Structural completeness of a sanitizer input: all seven day entries present. -/
def isComplete (x : PartialOperatingHours) : Bool :=
  x.monday.isSome && x.tuesday.isSome && x.wednesday.isSome && x.thursday.isSome &&
    x.friday.isSome && x.saturday.isSome && x.sunday.isSome

/-- The spec's description of one day's contribution to the validator's error
list, written from the claim's words to be compared with
`validateOperatingHours`: a missing day contributes exactly the missing-day
message; a closed day contributes nothing; an open day contributes one format
error per field failing the pattern, plus the equality error exactly when both
times parse to the same minute. -/
def specDayErrors (entry : Option DaySchedule) (name : String) : List String :=
  match entry with
  | none => ["Missing schedule for " ++ name]
  | some ds =>
    if ds.closed then []
    else
      (if isValidTimeFormat ds.openT then []
        else [name ++ ": Invalid opening time format. Use HH:MM (24-hour format)"]) ++
      (if isValidTimeFormat ds.closeT then []
        else [name ++ ": Invalid closing time format. Use HH:MM (24-hour format)"]) ++
      (if isValidTimeFormat ds.openT = true ∧ isValidTimeFormat ds.closeT = true ∧
          timeToMinutes ds.openT = timeToMinutes ds.closeT then
        [name ++ ": Opening and closing times cannot be the same"]
      else [])

/-- The day schedule consulted by the scan at day offset `i` from `start`. -/
def offsetSched (oh : OperatingHours) (start i : Int) : DaySchedule :=
  oh.get (dayNames (getDayOfWeek (start + i * msPerDay)))

/-- The candidate opening instant at day offset `i` from `start`. -/
def offsetOpening (oh : OperatingHours) (start i : Int) : Option Int :=
  openingInstant (offsetSched oh start i) (start + i * msPerDay)

/-- The scan's reason to skip day offset `i`: the day is closed, or it is the
same-day offset and its candidate opening is not strictly after `start`. -/
def offsetSkip (oh : OperatingHours) (start i : Int) : Prop :=
  (offsetSched oh start i).closed = true ∨
    (i = 0 ∧ jsLe (offsetOpening oh start i) (some start) = true)

/- ## Concrete inputs used by witnesses and counterexamples -/

/-- The empty sanitizer input `{}`. -/
def emptyPartialInput : PartialOperatingHours :=
  { monday := none, tuesday := none, wednesday := none, thursday := none,
    friday := none, saturday := none, sunday := none }

/-- A week closed every day (the open/close strings are present but ignored). -/
def allClosedWeek : OperatingHours :=
  { monday := { openT := "09:00", closeT := "22:00", closed := true }
    tuesday := { openT := "09:00", closeT := "22:00", closed := true }
    wednesday := { openT := "09:00", closeT := "22:00", closed := true }
    thursday := { openT := "09:00", closeT := "22:00", closed := true }
    friday := { openT := "09:00", closeT := "22:00", closed := true }
    saturday := { openT := "09:00", closeT := "22:00", closed := true }
    sunday := { openT := "09:00", closeT := "22:00", closed := true } }

/-- Open on Monday 09:00–22:00 only; every other day closed. -/
def onlyMondayWeek : OperatingHours :=
  { allClosedWeek with monday := { openT := "09:00", closeT := "22:00", closed := false } }

/-- Monday 09:00–22:00 and Tuesday 08:00–20:00 open; the rest closed. -/
def monTueWeek : OperatingHours :=
  { allClosedWeek with
    monday := { openT := "09:00", closeT := "22:00", closed := false }
    tuesday := { openT := "08:00", closeT := "20:00", closed := false } }

/-- Friday with a 22:00–02:00 midnight-crossing window and Saturday marked
closed (stale open/close fields left in place). -/
def overnightWeek : OperatingHours :=
  { DEFAULT_OPERATING_HOURS with
    friday := { openT := "22:00", closeT := "02:00", closed := false }
    saturday := { openT := "10:00", closeT := "22:00", closed := true } }

/-- Monday with the equal-times configuration 10:00–10:00 that validation rejects. -/
def equalTimesWeek : OperatingHours :=
  { DEFAULT_OPERATING_HOURS with
    monday := { openT := "10:00", closeT := "10:00", closed := false } }

/-- Timestamp of a Monday at 23:00 (calendar day 4 after the Thursday epoch). -/
def tsMonday2300 : Int := 4 * msPerDay + 23 * msPerHour

/-- Timestamp of the same Monday at 09:00. -/
def tsMonday0900 : Int := 4 * msPerDay + 9 * msPerHour

/-- Timestamp of the same Monday at 08:59. -/
def tsMonday0859 : Int := 4 * msPerDay + 8 * msPerHour + 59 * msPerMinute

/-- Timestamp of the same Monday at 22:00. -/
def tsMonday2200 : Int := 4 * msPerDay + 22 * msPerHour

/-- Timestamp of the same Monday at 03:00. -/
def tsMonday0300 : Int := 4 * msPerDay + 3 * msPerHour

/-- Timestamp of the following Tuesday at 08:00. -/
def tsTuesday0800 : Int := 5 * msPerDay + 8 * msPerHour

/-- Timestamp of a Saturday at 01:00 (calendar day 2 after the Thursday epoch). -/
def tsSaturday0100 : Int := 2 * msPerDay + 1 * msPerHour

/-- Timestamp of the preceding Friday at 23:00. -/
def tsFriday2300 : Int := 1 * msPerDay + 23 * msPerHour

/-- A sanitizer input exercising all three field rules on monday. -/
def exPartialInput : PartialOperatingHours :=
  { emptyPartialInput with
    monday := some { openT := some "07:30", closeT := some "", closed := some true } }

/-- A structurally complete sanitizer input. -/
def exCompleteInput : PartialOperatingHours :=
  { monday := some { openT := some "07:30", closeT := some "", closed := some true }
    tuesday := some { openT := none, closeT := some "23:45", closed := none }
    wednesday := some { openT := some "abc", closeT := some "1:99", closed := some false }
    thursday := some { openT := some "", closeT := none, closed := some false }
    friday := some { openT := some "11:11", closeT := some "11:11", closed := none }
    saturday := some { openT := none, closeT := none, closed := some true }
    sunday := some { openT := some "00:00", closeT := some "23:59", closed := some false } }

/- ## Helper lemmas -/

theorem jsLe_some_some (a b : Int) : jsLe (some a) (some b) = true ↔ a ≤ b := by
  simp [jsLe]

theorem jsLt_some_some (a b : Int) : jsLt (some a) (some b) = true ↔ a < b := by
  simp [jsLt]

/- ## C2 -/

/-- C2: if the weekday of the queried instant has `closed == true`, `isOpenAt`
returns false for every time-of-day on that day; the engine never projects an
overnight window forward into a day marked closed. -/
theorem closedDay_neverOpen (oh : OperatingHours) (t : Int)
    (h : (oh.get (dayNames (getDayOfWeek t))).closed = true) :
    isOpenAt oh t = false := by
  simp [isOpenAt, h]

/-- Witness for C2: Friday opens 22:00 and closes 02:00, Saturday is marked
closed; at Friday 23:00 the engine reports open, but at Saturday 01:00 —
inside the nominal overnight window — it reports closed. -/
theorem closedDay_neverOpen_witness :
    isOpenAt overnightWeek tsFriday2300 = true ∧
    isOpenAt overnightWeek tsSaturday0100 = false :=
  ⟨by decide, closedDay_neverOpen overnightWeek tsSaturday0100 (by decide)⟩

/- ## C3 -/

/-- C3: on a day with `closed == false` whose times convert to minute values
`o` and `c`, `isOpenAt` is true exactly on the inclusive window `o ≤ cur ≤ c`
when `o < c`, and exactly on the midnight-crossing disjunction
`cur ≥ o ∨ cur ≤ c` when `o ≥ c`. -/
theorem isOpenAt_minutes_spec (oh : OperatingHours) (t o c : Int)
    (hcl : (oh.get (dayNames (getDayOfWeek t))).closed = false)
    (ho : timeToMinutes (oh.get (dayNames (getDayOfWeek t))).openT = some o)
    (hc : timeToMinutes (oh.get (dayNames (getDayOfWeek t))).closeT = some c) :
    isOpenAt oh t = true ↔
      ((o < c ∧ o ≤ getHours t * 60 + getMinutes t ∧ getHours t * 60 + getMinutes t ≤ c) ∨
        (o ≥ c ∧ (getHours t * 60 + getMinutes t ≥ o ∨ getHours t * 60 + getMinutes t ≤ c))) := by
  simp only [isOpenAt, hcl, ho, hc, Bool.false_eq_true, if_false]
  cases hb : jsLt (some o) (some c)
  · have hoc : ¬ o < c := by simpa [jsLt] using hb
    simp [hb, jsLe]
    omega
  · have hoc : o < c := by simpa [jsLt] using hb
    simp [hb, jsLe]
    omega

/-- Witness for C3: with the default monday window 09:00–22:00 the engine is
open at 09:00, closed at 08:59 and still open at 22:00. -/
theorem isOpenAt_minutes_spec_witness :
    isOpenAt DEFAULT_OPERATING_HOURS tsMonday0900 = true ∧
    isOpenAt DEFAULT_OPERATING_HOURS tsMonday0859 = false ∧
    isOpenAt DEFAULT_OPERATING_HOURS tsMonday2200 = true :=
  ⟨(isOpenAt_minutes_spec DEFAULT_OPERATING_HOURS tsMonday0900 540 1320
      (by decide) (by decide) (by decide)).mpr (by decide),
    by decide, by decide⟩

/- ## C8 -/

/-- C8: a day with `closed == false` whose open and close times denote the same
minute behaves as open 24 hours: the `open >= close` branch's disjunction is
satisfied by every minute value. -/
theorem equalTimes_alwaysOpen (oh : OperatingHours) (t m : Int)
    (hcl : (oh.get (dayNames (getDayOfWeek t))).closed = false)
    (ho : timeToMinutes (oh.get (dayNames (getDayOfWeek t))).openT = some m)
    (hc : timeToMinutes (oh.get (dayNames (getDayOfWeek t))).closeT = some m) :
    isOpenAt oh t = true := by
  simp only [isOpenAt, hcl, ho, hc, Bool.false_eq_true, if_false]
  simp [jsLt, jsLe]
  omega

/-- Witness for C8: monday 10:00–10:00 (rejected by validation) reports open
at Monday 03:00. -/
theorem equalTimes_alwaysOpen_witness :
    isOpenAt equalTimesWeek tsMonday0300 = true :=
  equalTimes_alwaysOpen equalTimesWeek tsMonday0300 600
    (by decide) (by decide) (by decide)

/- ## C9 -/

/-- C9: the validator accepts time strings outside two-digit HH:MM form: the
single-digit hour "9:05" matches the pattern, so a day using it produces no
validation error. -/
theorem singleDigitHour_accepted :
    isValidTimeFormat "9:05" = true ∧
    validateDaySchedule { openT := "9:05", closeT := "22:00", closed := false } "monday" = [] := by
  constructor <;> decide

/- ## C5 -/

theorem sanitizeDaySub_some (di : DayInput) (dflt : DaySchedule) :
    sanitizeDaySub (some di) dflt =
      { openT :=
          match di.openT with
          | some s => if s = "" then dflt.openT else s
          | none => dflt.openT
        closeT :=
          match di.closeT with
          | some s => if s = "" then dflt.closeT else s
          | none => dflt.closeT
        closed :=
          match di.closed with
          | some b => b
          | none => false } := by
  obtain ⟨vo, vc, vb⟩ := di
  cases vo <;> cases vc <;> cases vb <;> rfl

/-- C5: `sanitize` is total: on the empty input it returns exactly the system
default schedule; a present input day takes `open`/`close` from the input only
when truthy and non-empty (default otherwise) and `closed` as the boolean
coercion of the input's `closed`; absent days equal the default's day. -/
theorem sanitize_field_spec :
    sanitizeOperatingHours emptyPartialInput = DEFAULT_OPERATING_HOURS ∧
    (∀ (input : PartialOperatingHours) (d : Day),
      input.get d = none →
      (sanitizeOperatingHours input).get d = DEFAULT_OPERATING_HOURS.get d) ∧
    (∀ (input : PartialOperatingHours) (d : Day) (di : DayInput),
      input.get d = some di →
      (sanitizeOperatingHours input).get d =
        { openT :=
            match di.openT with
            | some s => if s = "" then (DEFAULT_OPERATING_HOURS.get d).openT else s
            | none => (DEFAULT_OPERATING_HOURS.get d).openT
          closeT :=
            match di.closeT with
            | some s => if s = "" then (DEFAULT_OPERATING_HOURS.get d).closeT else s
            | none => (DEFAULT_OPERATING_HOURS.get d).closeT
          closed :=
            match di.closed with
            | some b => b
            | none => false }) := by
  refine ⟨by decide, ?_, ?_⟩
  · intro input d h
    cases d <;>
      (simp only [sanitizeOperatingHours, OperatingHours.get,
        PartialOperatingHours.get] at h ⊢; rw [h]; rfl)
  · intro input d di h
    cases d <;>
      (simp only [sanitizeOperatingHours, OperatingHours.get,
        PartialOperatingHours.get] at h ⊢; rw [h, sanitizeDaySub_some]; rfl)

/-- Witness for C5: on a monday entry with a non-empty `open`, an empty `close`
and `closed: true`, the sanitized monday keeps the input's open, the default's
close, and the coerced closed flag. -/
theorem sanitize_field_spec_witness :
    (sanitizeOperatingHours exPartialInput).get .monday =
      { openT := "07:30", closeT := "22:00", closed := true } := by
  have h := sanitize_field_spec.2.2 exPartialInput .monday
    { openT := some "07:30", closeT := some "", closed := some true } (by decide)
  simpa using h

/- ## C7 -/

theorem jsOrStr_round (v : Option String) (dflt : String) (h : dflt ≠ "") :
    jsOrStr (some (jsOrStr v dflt)) dflt = jsOrStr v dflt := by
  cases v with
  | none => simp [jsOrStr, h]
  | some s =>
    by_cases hs : s = "" <;> simp [jsOrStr, hs, h]

theorem sanitizeDaySub_round (di : Option DayInput) (dflt : DaySchedule)
    (h1 : dflt.openT ≠ "") (h2 : dflt.closeT ≠ "") :
    sanitizeDaySub (some (dayToInput (sanitizeDaySub di dflt))) dflt =
      sanitizeDaySub di dflt := by
  cases di with
  | none => simp [sanitizeDaySub, dayToInput, jsOrStr, jsBool, h1, h2]
  | some d =>
    simp only [sanitizeDaySub, dayToInput]
    refine DaySchedule.mk.injEq .. ▸ ?_
    exact ⟨jsOrStr_round d.openT dflt.openT h1, jsOrStr_round d.closeT dflt.closeT h2, rfl⟩

/-- C7: `sanitize` is idempotent on structurally-complete inputs:
`sanitize (sanitize x) = sanitize x`. -/
theorem sanitize_idempotent (x : PartialOperatingHours) (hx : isComplete x = true) :
    sanitizeOperatingHours (toPartial (sanitizeOperatingHours x)) =
      sanitizeOperatingHours x := by
  simp only [sanitizeOperatingHours, toPartial, OperatingHours.mk.injEq]
  refine ⟨?_, ?_, ?_, ?_, ?_, ?_, ?_⟩ <;>
    exact sanitizeDaySub_round _ _ (by decide) (by decide)

/-- Witness for C7: idempotence at a concrete structurally-complete input. -/
theorem sanitize_idempotent_witness :
    isComplete exCompleteInput = true ∧
    sanitizeOperatingHours (toPartial (sanitizeOperatingHours exCompleteInput)) =
      sanitizeOperatingHours exCompleteInput :=
  ⟨by decide, sanitize_idempotent exCompleteInput (by decide)⟩

/- ## C4 -/

theorem validateDaySchedule_eq_spec (ds : DaySchedule) (n : String) :
    validateDaySchedule ds n = specDayErrors (some ds) n := by
  simp only [validateDaySchedule, specDayErrors]
  by_cases hcl : ds.closed
  · simp [hcl]
  · by_cases ho : isValidTimeFormat ds.openT <;>
      by_cases hc : isValidTimeFormat ds.closeT <;>
      by_cases he : timeToMinutes ds.openT = timeToMinutes ds.closeT <;>
      simp [hcl, ho, hc, he]

/-- C4: the validator visits the day keys in the fixed order monday→sunday and
its error list is exactly the concatenation of each day's contribution as the
claim describes it (`specDayErrors`); the result is valid iff that list is
empty. -/
theorem validate_structure_spec (oh : OperatingHoursInput) :
    (validateOperatingHours oh).errors =
      specDayErrors oh.monday "monday" ++ specDayErrors oh.tuesday "tuesday" ++
        specDayErrors oh.wednesday "wednesday" ++ specDayErrors oh.thursday "thursday" ++
        specDayErrors oh.friday "friday" ++ specDayErrors oh.saturday "saturday" ++
        specDayErrors oh.sunday "sunday" ∧
    ((validateOperatingHours oh).isValid = true ↔ (validateOperatingHours oh).errors = []) := by
  constructor
  · simp only [validateOperatingHours, DAYS, List.flatMap_cons, List.flatMap_nil,
      List.append_nil, List.append_assoc, OperatingHoursInput.get, dayKey]
    cases oh.monday <;> cases oh.tuesday <;> cases oh.wednesday <;> cases oh.thursday <;>
      cases oh.friday <;> cases oh.saturday <;> cases oh.sunday <;>
      simp [validateDaySchedule_eq_spec, specDayErrors, List.append_assoc]
  · simp only [validateOperatingHours]
    constructor
    · intro h
      have : (DAYS.flatMap fun day =>
          match oh.get day with
          | none => ["Missing schedule for " ++ dayKey day]
          | some daySchedule => validateDaySchedule daySchedule (dayKey day)).length = 0 := by
        simpa using h
      exact List.length_eq_zero.mp this
    · intro h
      simp [h]

/- ## Character-level parsing lemmas (shared by C10 and C6) -/

theorem isDigitCh_bounds (c : Char) (hc : isDigitCh c = true) :
    48 ≤ c.toNat ∧ c.toNat ≤ 57 := by
  simpa [isDigitCh] using hc

theorem not_space_of_ge48 (c : Char) (h : 48 ≤ c.toNat) : jsIsSpace c = false := by
  simp only [jsIsSpace, Bool.or_eq_false_iff, beq_eq_false_iff_ne, ne_eq]
  refine ⟨⟨⟨?_, ?_⟩, ?_⟩, ?_⟩ <;> (rintro rfl; revert h; decide)

theorem ne_dash_of_ge48 (c : Char) (h : 48 ≤ c.toNat) : ¬ c = '-' := by
  rintro rfl; revert h; decide

theorem ne_plus_of_ge48 (c : Char) (h : 48 ≤ c.toNat) : ¬ c = '+' := by
  rintro rfl; revert h; decide

theorem ne_colon_of_le57 (c : Char) (h : c.toNat ≤ 57) : ¬ c = ':' := by
  rintro rfl; revert h; decide

theorem parseIntDec_one (c : Char) (hc : isDigitCh c = true) :
    parseIntDec [c] = some ((c.toNat : Int) - 48) := by
  obtain ⟨h1, h2⟩ := isDigitCh_bounds c hc
  simp [parseIntDec, List.dropWhile_cons, not_space_of_ge48 c h1,
    ne_dash_of_ge48 c h1, ne_plus_of_ge48 c h1, digPrefixVal, hc, digitVal]

theorem parseIntDec_two (c d : Char) (hc : isDigitCh c = true) (hd : isDigitCh d = true) :
    parseIntDec [c, d] = some (10 * ((c.toNat : Int) - 48) + ((d.toNat : Int) - 48)) := by
  obtain ⟨h1, h2⟩ := isDigitCh_bounds c hc
  simp [parseIntDec, List.dropWhile_cons, not_space_of_ge48 c h1,
    ne_dash_of_ge48 c h1, ne_plus_of_ge48 c h1, digPrefixVal, hc, hd, digitVal]
  ring

theorem splitOnCh_one_two (a c d : Char) (ha : ¬ a = ':') (hc : ¬ c = ':') (hd : ¬ d = ':') :
    splitOnCh ':' [a, ':', c, d] = [[a], [c, d]] := by
  simp [splitOnCh, ha, hc, hd]

theorem splitOnCh_two_two (a b c d : Char) (ha : ¬ a = ':') (hb : ¬ b = ':')
    (hc : ¬ c = ':') (hd : ¬ d = ':') :
    splitOnCh ':' [a, b, ':', c, d] = [[a, b], [c, d]] := by
  simp [splitOnCh, ha, hb, hc, hd]

/- ## C10 -/

theorem digitChar_toNat (a : Nat) (ha : a ≤ 9) : (digitChar a).toNat = 48 + a := by
  interval_cases a <;> decide

theorem isDigitCh_digitChar (a : Nat) (ha : a ≤ 9) : isDigitCh (digitChar a) = true := by
  simp [isDigitCh, digitChar_toNat a ha]
  omega

theorem ne_colon_digitChar (a : Nat) (ha : a ≤ 9) : ¬ digitChar a = ':' := by
  intro h
  have h2 := congrArg Char.toNat h
  rw [digitChar_toNat a ha] at h2
  have h3 : Char.toNat ':' = 58 := rfl
  omega

theorem natToCharsGo_small (fuel n : Nat) (hf : 1 ≤ fuel) (hn : n < 10) :
    natToCharsGo fuel n = [digitChar n] := by
  cases fuel with
  | zero => omega
  | succ f => simp [natToCharsGo, hn]

theorem padStart2_natToChars (n : Nat) (hn : n ≤ 99) :
    padStart2 (natToChars n) = [digitChar (n / 10), digitChar (n % 10)] := by
  by_cases h : n < 10
  · have e : natToChars n = [digitChar n] := natToCharsGo_small _ _ (by omega) h
    rw [e]
    have e0 : n / 10 = 0 := by omega
    have e1 : n % 10 = n := by omega
    rw [e0, e1]
    simp [padStart2, List.replicate]
    decide
  · have e : natToChars n = natToCharsGo n (n / 10) ++ [digitChar (n % 10)] := by
      simp [natToChars, natToCharsGo, h]
    rw [e, natToCharsGo_small n (n / 10) (by omega) (by omega)]
    simp [padStart2]

/-- C10: converting minutes-since-midnight (0..1439) to a zero-padded HH:MM
string and parsing it back with `timeToMinutes` is the identity. -/
theorem minutesToTime_roundtrip (m : Nat) (hm : m ≤ 1439) :
    timeToMinutes (minutesToTime m) = some (m : Int) := by
  have e1 := padStart2_natToChars (m / 60) (by omega)
  have e2 := padStart2_natToChars (m % 60) (by omega)
  have ba : m / 60 / 10 ≤ 9 := by omega
  have bb : m / 60 % 10 ≤ 9 := by omega
  have bc : m % 60 / 10 ≤ 9 := by omega
  have bd : m % 60 % 10 ≤ 9 := by omega
  have hsplit : minutesToTime m =
      String.mk [digitChar (m / 60 / 10), digitChar (m / 60 % 10), ':',
        digitChar (m % 60 / 10), digitChar (m % 60 % 10)] := by
    simp only [minutesToTime]
    rw [e1, e2]
    rfl
  rw [hsplit]
  simp only [timeToMinutes, splitHM]
  rw [splitOnCh_two_two _ _ _ _ (ne_colon_digitChar _ ba) (ne_colon_digitChar _ bb)
    (ne_colon_digitChar _ bc) (ne_colon_digitChar _ bd)]
  simp only [orZeroChars, List.isEmpty_cons, if_false, Bool.false_eq_true]
  rw [parseIntDec_two _ _ (isDigitCh_digitChar _ ba) (isDigitCh_digitChar _ bb),
    parseIntDec_two _ _ (isDigitCh_digitChar _ bc) (isDigitCh_digitChar _ bd)]
  rw [digitChar_toNat _ ba, digitChar_toNat _ bb, digitChar_toNat _ bc, digitChar_toNat _ bd]
  simp only [Option.some.injEq]
  push_cast
  omega

/-- Witness for C10: the round trip at the concrete minute count 545 (09:05). -/
theorem minutesToTime_roundtrip_witness :
    timeToMinutes (minutesToTime 545) = some (545 : Int) :=
  minutesToTime_roundtrip 545 (by decide)

/- ## C1 -/

/-- Counterexample to C1 as stated: `onlyMondayWeek` has a day with
`closed == false` (monday), yet `getNextOpeningTime` queried on Monday at
23:00 returns null — the 7-day scan meets monday only at offset 0, where the
09:00 candidate is not strictly after the query instant, and offsets 1..6 are
the six other (closed) weekdays. -/
theorem nextOpening_null_counterexample :
    onlyMondayWeek.monday.closed = false ∧
    getNextOpeningTime onlyMondayWeek tsMonday2300 = none := by
  exact ⟨rfl, by decide⟩

theorem nextOpenLoop_cons_none (oh : OperatingHours) (start i : Int) (rest : List Int) :
    nextOpenLoop oh start (i :: rest) = none ↔
      ((oh.get (dayNames (getDayOfWeek (start + i * msPerDay)))).closed = true ∨
        (i = 0 ∧ jsLe (openingInstant (oh.get (dayNames (getDayOfWeek (start + i * msPerDay))))
          (start + i * msPerDay)) (some start) = true)) ∧
      nextOpenLoop oh start rest = none := by
  simp only [nextOpenLoop]
  by_cases hcl : (oh.get (dayNames (getDayOfWeek (start + i * msPerDay)))).closed = true
  · simp [hcl]
  · have hcl' : (oh.get (dayNames (getDayOfWeek (start + i * msPerDay)))).closed = false := by
      simpa using hcl
    simp only [hcl', Bool.false_eq_true, if_false]
    by_cases hi : i = 0
    · subst hi
      by_cases hle : jsLe (openingInstant
          (oh.get (dayNames (getDayOfWeek start))) start) (some start) = true
      · simp [hle]
      · simp [hle]
    · simp [hi]

/-- C1 amended: `getNextOpeningTime` returns null iff every day other than the
query instant's weekday is closed, and the query instant's own weekday is
either also closed or its same-day candidate opening is not strictly after the
query instant.  (All-days-closed is the special case where the first disjunct
of the last conjunct holds.) -/
theorem nextOpening_none_iff (oh : OperatingHours) (start : Int) :
    getNextOpeningTime oh start = none ↔
      ((oh.get (dayNames (getDayOfWeek (start + 1 * msPerDay)))).closed = true ∧
        (oh.get (dayNames (getDayOfWeek (start + 2 * msPerDay)))).closed = true ∧
        (oh.get (dayNames (getDayOfWeek (start + 3 * msPerDay)))).closed = true ∧
        (oh.get (dayNames (getDayOfWeek (start + 4 * msPerDay)))).closed = true ∧
        (oh.get (dayNames (getDayOfWeek (start + 5 * msPerDay)))).closed = true ∧
        (oh.get (dayNames (getDayOfWeek (start + 6 * msPerDay)))).closed = true ∧
        ((oh.get (dayNames (getDayOfWeek start))).closed = true ∨
          jsLe (openingInstant (oh.get (dayNames (getDayOfWeek start))) start)
            (some start) = true)) := by
  rw [getNextOpeningTime, nextOpenLoop_cons_none, nextOpenLoop_cons_none,
    nextOpenLoop_cons_none, nextOpenLoop_cons_none, nextOpenLoop_cons_none,
    nextOpenLoop_cons_none, nextOpenLoop_cons_none]
  norm_num [nextOpenLoop]
  tauto

/- ## C6: helper lemmas -/

theorem isMinTensCh_bounds (c : Char) (h : isMinTensCh c = true) :
    48 ≤ c.toNat ∧ c.toNat ≤ 53 := by
  simpa [isMinTensCh] using h

theorem isDigitCh_of_bounds (c : Char) (h1 : 48 ≤ c.toNat) (h2 : c.toNat ≤ 57) :
    isDigitCh c = true := by
  simp [isDigitCh]
  omega

/-- A string matching the time pattern splits into in-range hour and minute
values (hour 0..23, minute 0..59). -/
theorem format_parse (s : String) (h : isValidTimeFormat s = true) :
    ∃ hv mv : Int, splitHM s = (some hv, some mv) ∧
      0 ≤ hv ∧ hv < 24 ∧ 0 ≤ mv ∧ mv < 60 := by
  obtain ⟨l⟩ := s
  rcases l with _ | ⟨c1, _ | ⟨c2, _ | ⟨c3, _ | ⟨c4, _ | ⟨c5, _ | ⟨c6, tl⟩⟩⟩⟩⟩⟩
  · exact absurd h (by simp [isValidTimeFormat])
  · exact absurd h (by simp [isValidTimeFormat])
  · exact absurd h (by simp [isValidTimeFormat])
  · exact absurd h (by simp [isValidTimeFormat])
  · -- four characters: single-digit hour
    simp only [isValidTimeFormat, Bool.and_eq_true, beq_iff_eq] at h
    obtain ⟨⟨⟨hcol, hd1⟩, hm1⟩, hm2⟩ := h
    subst hcol
    obtain ⟨b1l, b1r⟩ := isDigitCh_bounds _ hd1
    obtain ⟨b2l, b2r⟩ := isMinTensCh_bounds _ hm1
    obtain ⟨b3l, b3r⟩ := isDigitCh_bounds _ hm2
    refine ⟨(c1.toNat : Int) - 48,
      10 * ((c3.toNat : Int) - 48) + ((c4.toNat : Int) - 48), ?_,
      by omega, by omega, by omega, by omega⟩
    simp only [splitHM]
    rw [splitOnCh_one_two c1 c3 c4 (ne_colon_of_le57 _ b1r)
      (ne_colon_of_le57 _ (by omega)) (ne_colon_of_le57 _ b3r)]
    simp only [orZeroChars, List.isEmpty_cons, if_false, Bool.false_eq_true]
    rw [parseIntDec_one _ hd1,
      parseIntDec_two _ _ (isDigitCh_of_bounds _ b2l (by omega)) hm2]
  · -- five characters: two-digit hour
    simp only [isValidTimeFormat, Bool.and_eq_true, Bool.or_eq_true, beq_iff_eq,
      decide_eq_true_eq] at h
    obtain ⟨⟨⟨hcol, hhour⟩, hm1⟩, hm2⟩ := h
    subst hcol
    obtain ⟨b4l, b4r⟩ := isMinTensCh_bounds _ hm1
    obtain ⟨b5l, b5r⟩ := isDigitCh_bounds _ hm2
    have hc1 : 48 ≤ c1.toNat ∧ c1.toNat ≤ 57 := by
      rcases hhour with ⟨hc, _⟩ | ⟨⟨hc, _⟩, _⟩
      · rcases hc with rfl | rfl <;> exact ⟨by decide, by decide⟩
      · subst hc; exact ⟨by decide, by decide⟩
    have hc2 : 48 ≤ c2.toNat ∧ c2.toNat ≤ 57 := by
      rcases hhour with ⟨_, hd⟩ | ⟨⟨_, hd1⟩, hd2⟩
      · exact isDigitCh_bounds _ hd
      · exact ⟨hd1, by omega⟩
    have hhv : 0 ≤ 10 * ((c1.toNat : Int) - 48) + ((c2.toNat : Int) - 48) ∧
        10 * ((c1.toNat : Int) - 48) + ((c2.toNat : Int) - 48) < 24 := by
      rcases hhour with ⟨hc, hd⟩ | ⟨⟨hc, _⟩, hd2⟩
      · obtain ⟨d1, d2⟩ := isDigitCh_bounds _ hd
        rcases hc with rfl | rfl
        · have e : Char.toNat '0' = 48 := rfl
          omega
        · have e : Char.toNat '1' = 49 := rfl
          omega
      · subst hc
        have e : Char.toNat '2' = 50 := rfl
        omega
    refine ⟨10 * ((c1.toNat : Int) - 48) + ((c2.toNat : Int) - 48),
      10 * ((c4.toNat : Int) - 48) + ((c5.toNat : Int) - 48), ?_,
      hhv.1, hhv.2, by omega, by omega⟩
    simp only [splitHM]
    rw [splitOnCh_two_two c1 c2 c4 c5 (ne_colon_of_le57 _ hc1.2)
      (ne_colon_of_le57 _ hc2.2) (ne_colon_of_le57 _ (by omega))
      (ne_colon_of_le57 _ b5r)]
    simp only [orZeroChars, List.isEmpty_cons, if_false, Bool.false_eq_true]
    rw [parseIntDec_two _ _ (isDigitCh_of_bounds _ hc1.1 hc1.2)
      (isDigitCh_of_bounds _ hc2.1 hc2.2),
      parseIntDec_two _ _ (isDigitCh_of_bounds _ b4l (by omega)) hm2]
  · rw [show isValidTimeFormat ⟨c1 :: c2 :: c3 :: c4 :: c5 :: c6 :: tl⟩ = false from rfl] at h
    cases h

theorem valid_all_days (oh : OperatingHours)
    (hv : (validateOperatingHours (toInput oh)).isValid = true) :
    ∀ d : Day, validateDaySchedule (oh.get d) (dayKey d) = [] := by
  simp only [validateOperatingHours] at hv
  have hlen : (DAYS.flatMap fun day =>
      match (toInput oh).get day with
      | none => ["Missing schedule for " ++ dayKey day]
      | some daySchedule => validateDaySchedule daySchedule (dayKey day)).length = 0 := by
    simpa using hv
  have hnil := List.length_eq_zero.mp hlen
  simp only [DAYS, List.flatMap_cons, List.flatMap_nil, List.append_nil, toInput,
    OperatingHoursInput.get, List.append_eq_nil] at hnil
  intro d
  cases d <;> simp_all [OperatingHours.get, dayKey]

theorem validateDaySchedule_nil_formats (ds : DaySchedule) (n : String)
    (h : validateDaySchedule ds n = []) (hcl : ds.closed = false) :
    isValidTimeFormat ds.openT = true ∧ isValidTimeFormat ds.closeT = true := by
  by_cases ho : isValidTimeFormat ds.openT = true
  · by_cases hc : isValidTimeFormat ds.closeT = true
    · exact ⟨ho, hc⟩
    · exfalso
      simp [validateDaySchedule, hcl, ho, hc] at h
  · exfalso
    simp [validateDaySchedule, hcl, ho] at h

theorem dayStart_bounds (ts : Int) : dayStart ts ≤ ts ∧ ts < dayStart ts + msPerDay := by
  simp only [dayStart, msPerDay]
  omega

theorem dayStart_add_mul (ts k : Int) :
    dayStart (ts + k * msPerDay) = dayStart ts + k * msPerDay := by
  simp only [dayStart, msPerDay]
  omega

theorem getDayOfWeek_congr (ts r : Int) (h1 : dayStart ts ≤ r)
    (h2 : r < dayStart ts + msPerDay) : getDayOfWeek r = getDayOfWeek ts := by
  simp only [getDayOfWeek]
  have e : r / msPerDay = ts / msPerDay := by
    simp only [dayStart, msPerDay] at h1 h2
    simp only [msPerDay]
    omega
  rw [e]

theorem opening_fields (cd hv mv : Int) (h1 : 0 ≤ hv) (h2 : hv < 24)
    (h3 : 0 ≤ mv) (h4 : mv < 60) :
    getHours (dayStart cd + hv * msPerHour + mv * msPerMinute) = hv ∧
    getMinutes (dayStart cd + hv * msPerHour + mv * msPerMinute) = mv ∧
    (dayStart cd + hv * msPerHour + mv * msPerMinute) % msPerMinute = 0 ∧
    dayStart cd ≤ dayStart cd + hv * msPerHour + mv * msPerMinute ∧
    dayStart cd + hv * msPerHour + mv * msPerMinute < dayStart cd + msPerDay := by
  simp only [getHours, getMinutes, dayStart, msPerDay, msPerHour, msPerMinute]
  omega

theorem nextOpenLoop_cons_eq (oh : OperatingHours) (start i : Int) (rest : List Int) :
    nextOpenLoop oh start (i :: rest) =
      if (offsetSched oh start i).closed then nextOpenLoop oh start rest
      else if i == 0 && jsLe (offsetOpening oh start i) (some start) then
        nextOpenLoop oh start rest
      else some (offsetOpening oh start i) := rfl

/-- A successful scan splits the offset list into a skipped prefix, the first
non-skipped offset (whose candidate is returned), and an unvisited suffix. -/
theorem nextOpenLoop_some_decomp (oh : OperatingHours) (start : Int) (l : List Int)
    (ot : Option Int) (h : nextOpenLoop oh start l = some ot) :
    ∃ l1 i l2, l = l1 ++ i :: l2 ∧ (∀ j ∈ l1, offsetSkip oh start j) ∧
      ¬ offsetSkip oh start i ∧ ot = offsetOpening oh start i := by
  induction l with
  | nil => simp [nextOpenLoop] at h
  | cons i rest ih =>
    rw [nextOpenLoop_cons_eq] at h
    by_cases hcl : (offsetSched oh start i).closed = true
    · rw [if_pos hcl] at h
      obtain ⟨l1, i', l2, heq, hl1, hns, hot⟩ := ih h
      refine ⟨i :: l1, i', l2, by simp [heq], ?_, hns, hot⟩
      intro j hj
      rcases List.mem_cons.mp hj with rfl | hj'
      · exact Or.inl hcl
      · exact hl1 j hj'
    · rw [if_neg hcl] at h
      by_cases hsk : (i == 0 && jsLe (offsetOpening oh start i) (some start)) = true
      · rw [if_pos hsk] at h
        obtain ⟨l1, i', l2, heq, hl1, hns, hot⟩ := ih h
        refine ⟨i :: l1, i', l2, by simp [heq], ?_, hns, hot⟩
        intro j hj
        have hsk' : i = 0 ∧ jsLe (offsetOpening oh start i) (some start) = true := by
          simpa using hsk
        rcases List.mem_cons.mp hj with rfl | hj'
        · exact Or.inr hsk'
        · exact hl1 j hj'
      · rw [if_neg hsk] at h
        refine ⟨[], i, rest, rfl, by simp, ?_, (Option.some.inj h).symm⟩
        rintro (hc | ⟨hi0, hle⟩)
        · exact hcl hc
        · subst hi0
          exact hsk (by simp [hle])

theorem offsets_prefix (l1 : List Int) (i : Int) (l2 : List Int)
    (h : l1 ++ i :: l2 = [0, 1, 2, 3, 4, 5, 6]) :
    0 ≤ i ∧ i < 7 ∧ ∀ j : Int, 0 ≤ j → j < i → j ∈ l1 := by
  rcases l1 with _ | ⟨a0, _ | ⟨a1, _ | ⟨a2, _ | ⟨a3, _ | ⟨a4, _ | ⟨a5, _ | ⟨a6, rest⟩⟩⟩⟩⟩⟩⟩ <;>
    simp_all <;>
    intro j hj0 hji <;>
    omega

/- ## C6: main theorem -/

/-- C6: on a schedule that passes validation, any non-null result of
`getNextOpeningTime` is strictly after the query instant, falls on a calendar
day whose schedule has `closed == false`, carries exactly that day's opening
hour and minute with seconds and sub-seconds zeroed, and is the candidate of
the first qualifying day offset: no qualifying offset in 0..6 yields an
earlier opening instant. -/
theorem getNextOpeningTime_spec (oh : OperatingHours) (start r : Int)
    (hvalid : (validateOperatingHours (toInput oh)).isValid = true)
    (hr : getNextOpeningTime oh start = some (some r)) :
    start < r ∧
    (oh.get (dayNames (getDayOfWeek r))).closed = false ∧
    timeToMinutes (oh.get (dayNames (getDayOfWeek r))).openT =
      some (getHours r * 60 + getMinutes r) ∧
    r % msPerMinute = 0 ∧
    (∀ j : Int, 0 ≤ j → j < 7 → (offsetSched oh start j).closed = false →
      ∀ oj : Int, offsetOpening oh start j = some oj → start < oj → r ≤ oj) := by
  have hdays := valid_all_days oh hvalid
  obtain ⟨l1, i, l2, heq, hl1, hns, hot⟩ := nextOpenLoop_some_decomp oh start _ _ hr
  obtain ⟨hi0, hi7, hmem⟩ := offsets_prefix l1 i l2 heq.symm
  have hclosed : (offsetSched oh start i).closed = false := by
    by_contra hc
    exact hns (Or.inl (by simpa using hc))
  have hfmt : isValidTimeFormat (offsetSched oh start i).openT = true :=
    (validateDaySchedule_nil_formats _ _ (hdays _) hclosed).1
  obtain ⟨hv, mv, hsplit, hhv0, hhv24, hmv0, hmv60⟩ := format_parse _ hfmt
  have hopen : offsetOpening oh start i =
      some (dayStart (start + i * msPerDay) + hv * msPerHour + mv * msPerMinute) := by
    simp only [offsetOpening, openingInstant, hsplit]
  have hrval : r = dayStart (start + i * msPerDay) + hv * msPerHour + mv * msPerMinute := by
    rw [hopen] at hot
    exact Option.some.inj hot
  obtain ⟨hH, hM, hmod, hlow, hhigh⟩ :=
    opening_fields (start + i * msPerDay) hv mv hhv0 hhv24 hmv0 hmv60
  have hdow : getDayOfWeek r = getDayOfWeek (start + i * msPerDay) := by
    apply getDayOfWeek_congr
    · rw [hrval]; exact hlow
    · rw [hrval]; exact hhigh
  have hds : dayStart (start + i * msPerDay) = dayStart start + i * msPerDay :=
    dayStart_add_mul start i
  refine ⟨?_, ?_, ?_, ?_, ?_⟩
  · by_cases hi : i = 0
    · subst hi
      have hnle : ¬ jsLe (offsetOpening oh start 0) (some start) = true :=
        fun hle => hns (Or.inr ⟨rfl, hle⟩)
      rw [← hot] at hnle
      have hlt : ¬ r ≤ start := by
        intro hle
        exact hnle (by simp [jsLe, hle])
      omega
    · have h1 : 1 ≤ i := by omega
      have hb := dayStart_bounds start
      rw [hrval, hds]
      simp only [msPerDay, msPerHour, msPerMinute] at *
      omega
  · rw [hdow]
    exact hclosed
  · rw [hdow]
    have e : timeToMinutes (offsetSched oh start i).openT = some (hv * 60 + mv) := by
      simp only [timeToMinutes, hsplit]
    rw [show oh.get (dayNames (getDayOfWeek (start + i * msPerDay))) =
      offsetSched oh start i from rfl, e, hrval, hH, hM]
  · rw [hrval]
    exact hmod
  · intro j hj0 hj7 hjcl oj hoj hoj_start
    rcases lt_trichotomy j i with hlt | heq' | hgt
    · have hjmem := hmem j hj0 hlt
      have hskip := hl1 j hjmem
      rcases hskip with hc | ⟨hj00, hle⟩
      · rw [hjcl] at hc
        cases hc
      · rw [hoj] at hle
        have : oj ≤ start := by simpa [jsLe] using hle
        omega
    · subst heq'
      have e : oj = dayStart (start + j * msPerDay) + hv * msPerHour + mv * msPerMinute := by
        rw [hopen] at hoj
        exact (Option.some.inj hoj).symm
      rw [hrval, e]
    · have hjfmt : isValidTimeFormat (offsetSched oh start j).openT = true :=
        (validateDaySchedule_nil_formats _ _ (hdays _) hjcl).1
      obtain ⟨hv2, mv2, hsplit2, h20, h224, h2m0, h2m60⟩ := format_parse _ hjfmt
      have hopen2 : offsetOpening oh start j =
          some (dayStart (start + j * msPerDay) + hv2 * msPerHour + mv2 * msPerMinute) := by
        simp only [offsetOpening, openingInstant, hsplit2]
      rw [hopen2] at hoj
      have hojval := Option.some.inj hoj
      have hds2 : dayStart (start + j * msPerDay) = dayStart start + j * msPerDay :=
        dayStart_add_mul start j
      rw [hrval, hds, ← hojval, hds2]
      simp only [msPerDay, msPerHour, msPerMinute] at *
      omega

/-- Witness for C6: with Monday 09:00–22:00 and Tuesday 08:00–20:00 open and
the other days closed, calling at Monday 23:00 returns Tuesday at 08:00, which
moreover satisfies every conjunct of the specification. -/
theorem getNextOpeningTime_spec_witness :
    getNextOpeningTime monTueWeek tsMonday2300 = some (some tsTuesday0800) ∧
    (tsMonday2300 < tsTuesday0800 ∧
      (monTueWeek.get (dayNames (getDayOfWeek tsTuesday0800))).closed = false ∧
      timeToMinutes (monTueWeek.get (dayNames (getDayOfWeek tsTuesday0800))).openT =
        some (getHours tsTuesday0800 * 60 + getMinutes tsTuesday0800) ∧
      tsTuesday0800 % msPerMinute = 0 ∧
      (∀ j : Int, 0 ≤ j → j < 7 → (offsetSched monTueWeek tsMonday2300 j).closed = false →
        ∀ oj : Int, offsetOpening monTueWeek tsMonday2300 j = some oj →
          tsMonday2300 < oj → tsTuesday0800 ≤ oj)) :=
  ⟨by decide,
    getNextOpeningTime_spec monTueWeek tsMonday2300 tsTuesday0800 (by decide) (by decide)⟩
